import Mathlib

/-!
Shallow embedding of the GitHub-Repo-Analyzer core
(src/github_analyzer.py, class GitHubRepoAnalyzer, plus the
language-chart filter of src/app.py), together with theorems that settle
the frozen claims about it.

Modelling conventions:
* HTTP traffic is an oracle `srv : Nat -> HttpResponse _` giving the
  server's answer to the n-th request attempt; `requests.get` is the act
  of consuming one index of that oracle.
* The recursive retry of `make_request` (which has no bound in the
  source) is driven by an explicit fuel parameter; a `none` result means
  the fuel was exhausted, i.e. the source recursion has not yet returned
  after that many attempts.
* Wall-clock time is an explicit `clock : Int` field of the client
  state, advanced only by `time.sleep`; `time.time()` reads it.  The
  fixed 0.6 s inter-request delay of anonymous mode only adds to the
  clock and is irrelevant to every claim, so it is not modelled.
* Python exceptions that can escape (`response.json()` on a body that is
  not JSON, `base64.b64decode(...).decode("utf-8")` on a malformed
  payload) are modelled with `Except PyError`; a response carries
  `jsonBody : Option a` where `none` means `response.json()` raises.
* `float` arithmetic of the averages is modelled exactly over `Rat`.
* `datetime.strptime(ts[:10], "%Y-%m-%d")` values are modelled as day
  numbers (`Int`); subtraction of two dates (`.days`) is integer
  subtraction of day numbers, `datetime.now()` is an injected `today`.
* `collections.Counter` is modelled as an insertion-ordered association
  list `List (String × Nat)`; `most_common(1)` picks the first maximum,
  matching Counter's stable insertion-order tie-break.
-/

/-- Python-level exceptions that the client can let escape. -/
inductive PyError where
  | jsonDecodeError
  | base64Error
deriving Repr, DecidableEq

/-- One HTTP response as seen by `make_request`: status code, whether
`"rate limit" in response.text.lower()`, the `X-RateLimit-Reset` and
`X-RateLimit-Remaining` headers, and the result of `response.json()`
(`none` when the body is not valid JSON, in which case `.json()`
raises). -/
structure HttpResponse (α : Type) where
  status : Nat
  bodyHasRateLimit : Bool
  resetHeader : Option Int
  remainingHeader : Option Nat
  jsonBody : Option α
deriving Repr, DecidableEq

/-- Mutable state of `GitHubRepoAnalyzer`: `self.request_count`,
`self.rate_limit_remaining`, plus the wall clock read by `time.time()`
and advanced by `time.sleep`. -/
structure ClientState where
  requestCount : Nat
  rateLimitRemaining : Nat
  clock : Int
deriving Repr, DecidableEq

/-- `response.status_code == 403 and "rate limit" in response.text.lower()`. -/
def isRateLimited {α : Type} (r : HttpResponse α) : Bool :=
  r.status == 403 && r.bodyHasRateLimit

/-- The state updates done at the top of every `make_request` attempt:
`self.request_count += 1` and the `X-RateLimit-Remaining` bookkeeping. -/
def afterHeaders {α : Type} (s : ClientState) (r : HttpResponse α) : ClientState :=
  { s with
    requestCount := s.requestCount + 1
    rateLimitRemaining := r.remainingHeader.getD s.rateLimitRemaining }

/-- The client state in force when the retry of a rate-limited request
is issued: headers processed, and the clock advanced by
`sleep_time = max(reset_time - time.time(), 0) + 10` where `reset_time`
is the reset header or `time.time() + 60` when absent. -/
def retryState {α : Type} (s : ClientState) (r : HttpResponse α) : ClientState :=
  let s1 := afterHeaders s r
  let reset := r.resetHeader.getD (s1.clock + 60)
  let sleep_time := max (reset - s1.clock) 0 + 10
  { s1 with clock := s1.clock + sleep_time }

/-- `response.json().get("message", ...)` is evaluated on every non-200
response before `make_request` returns `None`; when the body is not
JSON that call raises. -/
def nonOkResult {α : Type} (r : HttpResponse α) :
    Except PyError (Option (HttpResponse α)) :=
  match r.jsonBody with
  | none => Except.error PyError.jsonDecodeError
  | some _ => Except.ok none

/-- `GitHubRepoAnalyzer.make_request` (github_analyzer.py lines 23-50)
over the response oracle `srv`, starting at attempt index `i`.  Returns
the outcome (`.error` = a Python exception escapes, `.ok none` = the
source returns `None`, `.ok (some r)` = the source returns the 200
response), the final client state, and the next unused attempt index.
The outer `Option` is the fuel bound on the unbounded retry recursion. -/
def make_request {α : Type} :
    Nat → (Nat → HttpResponse α) → Nat → ClientState →
    Option (Except PyError (Option (HttpResponse α)) × ClientState × Nat)
  | 0, _, _, _ => none
  | fuel + 1, srv, i, s =>
    let r := srv i
    let s1 := afterHeaders s r
    if isRateLimited r then
      make_request fuel srv (i + 1) (retryState s r)
    else if r.status ≠ 200 then
      some (nonOkResult r, s1, i + 1)
    else
      some (Except.ok (some r), s1, i + 1)

/-- `per_page = 100` in `get_user_repos`. -/
def per_page : Nat := 100

/-- The pages `[page, page+1, ..., page+m-1]`, used to record which page
numbers a run of `get_user_repos` requested, in order. -/
def pageList : Nat → Nat → List Nat
  | _, 0 => []
  | page, m + 1 => page :: pageList (page + 1) m

/-- The `while True` pagination loop of `get_user_repos`
(github_analyzer.py lines 64-81).  `srv page` is the outcome of
`make_request` on the page-`page` listing URL followed by
`response.json()`: `none` models a failed request, `some l` the decoded
page.  Returns the source's result (`none` = the source returns `None`)
paired with the log of requested page numbers; the outer `Option` is
fuel for the unbounded loop. -/
def get_user_repos_loop {α : Type} :
    Nat → (Nat → Option (List α)) → Nat → List α →
    Option (Option (List α) × List Nat)
  | 0, _, _, _ => none
  | fuel + 1, srv, page, repos =>
    match srv page with
    | none => some (none, [page])
    | some page_repos =>
      if page_repos.isEmpty then some (some repos, [page])
      else
        let repos2 := repos ++ page_repos
        if page_repos.length < per_page then some (some repos2, [page])
        else
          match get_user_repos_loop fuel srv (page + 1) repos2 with
          | none => none
          | some (res, log) => some (res, page :: log)

/-- `GitHubRepoAnalyzer.get_user_repos` (lines 58-83): start at page 1
with an empty accumulator. -/
def get_user_repos {α : Type} (fuel : Nat) (srv : Nat → Option (List α)) :
    Option (Option (List α) × List Nat) :=
  get_user_repos_loop fuel srv 1 []

/-- `GitHubRepoAnalyzer.get_repo_commits` (lines 91-97): a single
`make_request` on the commits URL (`since` = one year back,
`per_page=100`, no pagination), then `response.json() if response else []`. -/
def get_repo_commits {α : Type} (fuel : Nat) (srv : Nat → HttpResponse (List α))
    (i : Nat) (s : ClientState) :
    Option (Except PyError (List α) × ClientState × Nat) :=
  match make_request fuel srv i s with
  | none => none
  | some (Except.error e, s2, j) => some (Except.error e, s2, j)
  | some (Except.ok none, s2, j) => some (Except.ok [], s2, j)
  | some (Except.ok (some r), s2, j) =>
    match r.jsonBody with
    | none => some (Except.error PyError.jsonDecodeError, s2, j)
    | some l => some (Except.ok l, s2, j)

/-- The JSON object of the readme endpoint: its `content` field
(`response.json().get("content", "")` reads `none` as `""`). -/
structure ReadmePayload where
  content : Option String
deriving Repr, DecidableEq

/-- `GitHubRepoAnalyzer.get_repo_readme` (lines 105-113).  `b64` models
`lambda c: base64.b64decode(c).decode("utf-8")`, a partial operation:
`none` means that call raises (`binascii.Error` on malformed base64,
`UnicodeDecodeError` on non-UTF-8 bytes), modelled as
`PyError.base64Error`. -/
def get_repo_readme (b64 : String → Option String) (fuel : Nat)
    (srv : Nat → HttpResponse ReadmePayload) (i : Nat) (s : ClientState) :
    Option (Except PyError (Option String) × ClientState × Nat) :=
  match make_request fuel srv i s with
  | none => none
  | some (Except.error e, s2, j) => some (Except.error e, s2, j)
  | some (Except.ok none, s2, j) => some (Except.ok none, s2, j)
  | some (Except.ok (some r), s2, j) =>
    if r.status = 200 then
      match r.jsonBody with
      | none => some (Except.error PyError.jsonDecodeError, s2, j)
      | some payload =>
        let content := payload.content.getD ""
        if content = "" then some (Except.ok none, s2, j)
        else
          match b64 content with
          | none => some (Except.error PyError.base64Error, s2, j)
          | some text => some (Except.ok (some text), s2, j)
    else some (Except.ok none, s2, j)

/-- Python `x or d` for `x : Optional[str]`: `None` and `""` are falsy. -/
def pyOrStr (o : Option String) (d : String) : String :=
  match o with
  | none => d
  | some s => if s = "" then d else s

/-- Does `needle` occur as a contiguous substring of `hay`
(Python `needle in hay`)? -/
def startsWithChars : List Char → List Char → Bool
  | [], _ => true
  | _ :: _, [] => false
  | a :: as, b :: bs => a == b && startsWithChars as bs

/-- Python `needle in hay` on strings. -/
def strContains (hay needle : String) : Bool :=
  (List.range (hay.data.length + 1)).any
    (fun i => startsWithChars needle.data (hay.data.drop i))

/-- ASCII case folding of one character (`str.lower()` restricted to
the ASCII range, which covers the fixed keyword vocabulary). -/
def charLower (c : Char) : Char :=
  if 65 <= c.toNat ∧ c.toNat <= 90 then Char.ofNat (c.toNat + 32) else c

/-- `readme_text.lower()`, character-wise ASCII case folding. -/
def pyLower (s : String) : String :=
  String.mk (s.data.map charLower)

/-- The fixed keyword vocabulary of `extract_tech_stack`
(github_analyzer.py lines 128-134). -/
def tech_keywords : List String :=
  ["react", "vue", "angular", "django", "flask", "express", "spring",
   "node", "python", "javascript", "typescript", "java", "go", "rust",
   "docker", "kubernetes", "aws", "azure", "gcp", "terraform", "ansible",
   "postgresql", "mysql", "mongodb", "redis", "graphql", "webpack", "babel",
   "jest", "mocha", "pytest", "jenkins", "github actions", "travis", "circleci"]

/-- `GitHubRepoAnalyzer.extract_tech_stack` (lines 122-143):
`if not readme_text: return []`, then keep each keyword contained in
the lowercased text, in vocabulary order. -/
def extract_tech_stack (readme_text : Option String) : List String :=
  match readme_text with
  | none => []
  | some t =>
    if t = "" then []
    else
      let readme_lower := pyLower t
      tech_keywords.filter (fun tech => strContains readme_lower tech)

/-- Insertion-ordered counter increment (`Counter.update([k])`). -/
def counterUpdate : List (String × Nat) → String → List (String × Nat)
  | [], k => [(k, 1)]
  | (k2, n) :: rest, k =>
    if k2 = k then (k2, n + 1) :: rest else (k2, n) :: counterUpdate rest k

/-- `Counter.update(l)` for a list of keys. -/
def counterUpdateList (c : List (String × Nat)) (l : List String) :
    List (String × Nat) :=
  l.foldl counterUpdate c

/-- Read a counter (0 for an absent key). -/
def counterGet : List (String × Nat) → String → Nat
  | [], _ => 0
  | (k2, n) :: rest, k => if k2 = k then n else counterGet rest k

/-- `sum(counter.values())`. -/
def sumValues (c : List (String × Nat)) : Nat :=
  (c.map Prod.snd).sum

/-- `Counter.most_common(1)`: the first entry holding the maximal count
(Counter sorts by count, stable on insertion order). -/
def mostCommon1 (c : List (String × Nat)) : Option (String × Nat) :=
  c.foldl
    (fun acc p =>
      match acc with
      | none => some p
      | some q => if p.2 > q.2 then some p else acc)
    none

/-- One repository record of the listing endpoint, holding exactly the
fields `analyze_repos` reads (github_analyzer.py lines 164-181).
`created_days`/`updated_days` are the day numbers of the parsed
`created_at[:10]`/`updated_at[:10]` dates; `license_key` is
`repo["license"]["key"]` with `none` for a null license. -/
structure RepoRecord where
  name : String
  owner_login : String
  language : Option String
  stargazers_count : Nat
  forks_count : Nat
  size : Nat
  html_url : String
  description : Option String
  created_days : Int
  updated_days : Int
  watchers_count : Nat
  open_issues_count : Nat
  license_key : Option String
  fork : Bool
  default_branch : String
  has_wiki : Bool
  has_pages : Bool
  archived : Bool
deriving Repr, DecidableEq

/-- The four per-repo sub-resource fetches, as oracles keyed by
`(owner, repo_name)`: the value each `get_repo_*` call delivers to
`analyze_repos` (already including the empty default taken on a failed
request). -/
structure Oracles where
  langs : String → String → List (String × Nat)
  contributors : String → String → List String
  commits : String → String → List String
  readme : String → String → Option String

/-- One entry of the `repo_data` list built by `analyze_repos`
(github_analyzer.py lines 201-227). -/
structure RepoDetail where
  name : String
  owner : String
  language : String
  languages : List (String × Nat)
  stars : Nat
  forks : Nat
  size : Nat
  url : String
  description : String
  created_days : Int
  updated_days : Int
  watchers : Nat
  open_issues : Nat
  license : String
  is_fork : Bool
  default_branch : String
  has_wiki : Bool
  has_pages : Bool
  archived : Bool
  repo_age_days : Int
  days_since_update : Int
  contributors_count : Nat
  commits_count : Nat
  tech_stack : List String
  readme : Option String
deriving Repr, DecidableEq

/-- `repo["license"]["key"] if repo["license"] else "None"`. -/
def licenseOf (r : RepoRecord) : String :=
  match r.license_key with
  | none => "None"
  | some k => k

/-- The `repo_data.append({...})` entry built for one repo inside the
loop of `analyze_repos` (lines 183-227). -/
def mkDetail (o : Oracles) (today : Int) (r : RepoRecord) : RepoDetail :=
  let readme := o.readme r.owner_login r.name
  { name := r.name
    owner := r.owner_login
    language := pyOrStr r.language "Unknown"
    languages := o.langs r.owner_login r.name
    stars := r.stargazers_count
    forks := r.forks_count
    size := r.size
    url := r.html_url
    description := pyOrStr r.description "No description"
    created_days := r.created_days
    updated_days := r.updated_days
    watchers := r.watchers_count
    open_issues := r.open_issues_count
    license := licenseOf r
    is_fork := r.fork
    default_branch := r.default_branch
    has_wiki := r.has_wiki
    has_pages := r.has_pages
    archived := r.archived
    repo_age_days := today - r.created_days
    days_since_update := today - r.updated_days
    contributors_count := (o.contributors r.owner_login r.name).length
    commits_count := (o.commits r.owner_login r.name).length
    tech_stack := extract_tech_stack readme
    readme := readme }

/-- The running accumulators of the `for repo in repos` loop of
`analyze_repos` (lines 151-160). -/
structure Accum where
  repo_data : List RepoDetail
  language_counter : List (String × Nat)
  total_stars : Nat
  total_forks : Nat
  total_size : Nat
  total_watchers : Nat
  total_issues : Nat
  license_counter : List (String × Nat)
  tech_stack_counter : List (String × Nat)

def initAccum : Accum :=
  { repo_data := []
    language_counter := []
    total_stars := 0
    total_forks := 0
    total_size := 0
    total_watchers := 0
    total_issues := 0
    license_counter := []
    tech_stack_counter := [] }

/-- The body of the `for repo in repos` loop (lines 163-237): build the
detail entry, update the tech-stack counter with the extracted list,
update the language counter when `language` is truthy (it always is,
since `repo["language"] or "Unknown"` is never falsy), add the totals,
and count the license. -/
def processRepo (o : Oracles) (today : Int) (a : Accum) (r : RepoRecord) :
    Accum :=
  let language := pyOrStr r.language "Unknown"
  let d := mkDetail o today r
  { repo_data := a.repo_data ++ [d]
    language_counter :=
      if language = "" then a.language_counter
      else counterUpdate a.language_counter language
    total_stars := a.total_stars + r.stargazers_count
    total_forks := a.total_forks + r.forks_count
    total_size := a.total_size + r.size
    total_watchers := a.total_watchers + r.watchers_count
    total_issues := a.total_issues + r.open_issues_count
    license_counter := counterUpdate a.license_counter (licenseOf r)
    tech_stack_counter := counterUpdateList a.tech_stack_counter d.tech_stack }

/-- The returned summary dictionary of `analyze_repos` (lines 260-286).
`float` averages are exact `Rat` values. -/
structure Summary where
  repo_count : Nat
  repos : List RepoDetail
  most_used_language : String
  language_count : Nat
  total_stars : Nat
  total_forks : Nat
  total_size : Nat
  total_watchers : Nat
  total_issues : Nat
  language_distribution : List (String × Nat)
  license_distribution : List (String × Nat)
  tech_stack_distribution : List (String × Nat)
  avg_stars : Rat
  avg_forks : Rat
  avg_watchers : Rat
  avg_issues : Rat
  active_repos : Nat
  archived_repos : Nat
  fork_repos : Nat
  avg_repo_age : Rat
  avg_days_since_update : Rat
  avg_contributors : Rat
  avg_commits : Rat
  request_count : Nat
  rate_limit_remaining : Nat
deriving Repr, DecidableEq

/-- The dictionary returned by `analyze_repos` (lines 239-286),
computed from the loop accumulators; `s2` is the client state after the
enrichment loop, whose `request_count` and `rate_limit_remaining` the
source copies into the result (lines 284-285). -/
def summaryOf (o : Oracles) (repos : List RepoRecord) (today : Int)
    (s2 : ClientState) : Summary :=
  let a := repos.foldl (processRepo o today) initAccum
  let active_repos :=
    (a.repo_data.filter (fun d => d.days_since_update < 90)).length
  let archived_repos := (a.repo_data.filter (fun d => d.archived)).length
  let fork_repos := (a.repo_data.filter (fun d => d.is_fork)).length
  let mu := (mostCommon1 a.language_counter).getD ("None", 0)
  let nRepos := repos.length
  let nData := a.repo_data.length
  { repo_count := nRepos
    repos := a.repo_data
    most_used_language := mu.1
    language_count := mu.2
    total_stars := a.total_stars
    total_forks := a.total_forks
    total_size := a.total_size
    total_watchers := a.total_watchers
    total_issues := a.total_issues
    language_distribution := a.language_counter
    license_distribution := a.license_counter
    tech_stack_distribution := a.tech_stack_counter
    avg_stars :=
      if repos.isEmpty then 0 else (a.total_stars : Rat) / (nRepos : Rat)
    avg_forks :=
      if repos.isEmpty then 0 else (a.total_forks : Rat) / (nRepos : Rat)
    avg_watchers :=
      if repos.isEmpty then 0
      else (a.total_watchers : Rat) / (nRepos : Rat)
    avg_issues :=
      if repos.isEmpty then 0 else (a.total_issues : Rat) / (nRepos : Rat)
    active_repos := active_repos
    archived_repos := archived_repos
    fork_repos := fork_repos
    avg_repo_age :=
      if a.repo_data.isEmpty then 0
      else (((a.repo_data.map (fun d => d.repo_age_days)).sum : Int) : Rat)
        / (nData : Rat)
    avg_days_since_update :=
      if a.repo_data.isEmpty then 0
      else
        (((a.repo_data.map (fun d => d.days_since_update)).sum : Int) : Rat)
        / (nData : Rat)
    avg_contributors :=
      if a.repo_data.isEmpty then 0
      else (((a.repo_data.map (fun d => d.contributors_count)).sum : Nat) : Rat)
        / (nData : Rat)
    avg_commits :=
      if a.repo_data.isEmpty then 0
      else (((a.repo_data.map (fun d => d.commits_count)).sum : Nat) : Rat)
        / (nData : Rat)
    request_count := s2.requestCount
    rate_limit_remaining := s2.rateLimitRemaining }

/-- `GitHubRepoAnalyzer.analyze_repos` (lines 145-286).  `today` is the
day number of `datetime.now()`; `s` is the client state on entry.  The
four per-repo sub-fetches each issue one request (`make_request`
increments `self.request_count` once per call; no rate-limit retry
fires because the oracles already carry the delivered values), so the
state leaves with `request_count` advanced by 4 per repo.  `None` is
returned for a falsy `repos` argument (lines 147-148). -/
def analyze_repos (o : Oracles) (repos : List RepoRecord) (today : Int)
    (s : ClientState) : Option (Summary × ClientState) :=
  if repos.isEmpty then none
  else
    let s2 : ClientState :=
      { s with requestCount := s.requestCount + 4 * repos.length }
    some (summaryOf o repos today s2, s2)

/-- The language-chart list of the presentation layer (src/app.py line
276): `[(k, v) for k, v in dist.items() if k and k != "Unknown"]`. -/
def lang_data (dist : List (String × Nat)) : List (String × Nat) :=
  dist.filter (fun p => p.1 ≠ "" && p.1 ≠ "Unknown")

/-! ### Counter lemmas -/

theorem sumValues_counterUpdate (c : List (String × Nat)) (k : String) :
    sumValues (counterUpdate c k) = sumValues c + 1 := by
  induction c with
  | nil => simp [counterUpdate, sumValues]
  | cons p rest ih =>
    obtain ⟨k2, n⟩ := p
    by_cases h : k2 = k
    · simp [counterUpdate, h, sumValues]
      omega
    · simp [counterUpdate, h, sumValues] at ih ⊢
      omega

theorem counterGet_counterUpdate (c : List (String × Nat)) (k k2 : String) :
    counterGet (counterUpdate c k) k2 =
      counterGet c k2 + (if k = k2 then 1 else 0) := by
  induction c with
  | nil =>
    by_cases h : k = k2 <;> simp [counterUpdate, counterGet, h]
  | cons p rest ih =>
    obtain ⟨k3, n⟩ := p
    by_cases h3 : k3 = k
    · subst h3
      by_cases h2 : k3 = k2 <;> simp [counterUpdate, counterGet, h2]
    · by_cases h2 : k3 = k2
      · subst h2
        have : ¬(k = k3) := fun h => h3 h.symm
        simp [counterUpdate, counterGet, h3, this]
      · simp [counterUpdate, counterGet, h3, h2, ih]

theorem pyOrStr_ne_empty (o : Option String) (d : String) (hd : d ≠ "") :
    pyOrStr o d ≠ "" := by
  cases o with
  | none => simpa [pyOrStr] using hd
  | some s =>
    by_cases h : s = "" <;> simp [pyOrStr, h, hd]

/-! ### C1: pagination of get_user_repos -/

theorem get_user_repos_loop_fail {α : Type} (srv : Nat → Option (List α))
    (k : Nat) :
    ∀ (fuel page : Nat) (acc : List α),
      (∀ p, page ≤ p → p ≤ k → ∃ l, srv p = some l ∧ per_page ≤ l.length) →
      srv (k + 1) = none → page ≤ k + 1 → k + 2 - page ≤ fuel →
      get_user_repos_loop fuel srv page acc =
        some (none, pageList page (k + 2 - page)) := by
  intro fuel
  induction fuel with
  | zero => intro page acc _ _ hpage hfuel; omega
  | succ f ih =>
    intro page acc hfull hfail hpage hfuel
    by_cases hpk : page = k + 1
    · subst hpk
      have hone : k + 2 - (k + 1) = 1 := by omega
      rw [hone]
      simp [get_user_repos_loop, hfail, pageList]
    · have hle : page ≤ k := by omega
      obtain ⟨l, hl, hlen⟩ := hfull page (Nat.le_refl page) hle
      have hlpos : 0 < l.length := by
        have : (100 : Nat) ≤ l.length := hlen
        omega
      have hne : l.isEmpty = false := by
        cases l with
        | nil => simp at hlpos
        | cons a as => rfl
      have hnotlt : ¬(l.length < per_page) := Nat.not_lt.mpr hlen
      have hrec := ih (page + 1) (acc ++ l)
        (fun p hp1 hp2 => hfull p (by omega) hp2) hfail (by omega) (by omega)
      have hsplit : k + 2 - page = (k + 1 - page) + 1 := by omega
      have hshift : k + 2 - (page + 1) = k + 1 - page := by omega
      rw [hshift] at hrec
      unfold get_user_repos_loop
      rw [hl]
      simp only [hne, Bool.false_eq_true, if_false, hnotlt, hrec]
      rw [hsplit]
      rfl

theorem pageList_chain : ∀ (m p : Nat),
    List.Chain' (fun a b => a < b) (pageList p m)
  | 0, p => by simp [pageList]
  | m + 1, p => by
    have ih := pageList_chain m (p + 1)
    rw [show pageList p (m + 1) = p :: pageList (p + 1) m from rfl]
    refine List.chain'_cons'.mpr ⟨?_, ih⟩
    intro b hb
    cases m with
    | zero => simp [pageList] at hb
    | succ m2 =>
      rw [show pageList (p + 1) (m2 + 1) = (p + 1) :: pageList (p + 2) m2
        from rfl] at hb
      simp at hb
      omega

/-- C1: `get_user_repos` requests listing pages in strictly increasing
order starting at page 1 with page size 100, stops on a short or empty
page, and returns the null sentinel (never an empty sequence) whenever
any page request fails outright, including a failure on a later page
after earlier full pages succeeded; the null result is distinct from
the empty listing returned for a user with zero repositories. -/
theorem get_user_repos_null_on_failure {α : Type} (srv : Nat → Option (List α))
    (k fuel : Nat)
    (hfull : ∀ p, 1 ≤ p → p ≤ k → ∃ l, srv p = some l ∧ per_page ≤ l.length)
    (hfail : srv (k + 1) = none) (hfuel : k + 1 ≤ fuel) :
    get_user_repos fuel srv = some (none, pageList 1 (k + 1)) ∧
    List.Chain' (fun a b => a < b) (pageList 1 (k + 1)) ∧
    per_page = 100 ∧
    (∀ (srv2 : Nat → Option (List α)) (f2 page : Nat) (acc l : List α),
      srv2 page = some l → l.isEmpty = false → l.length < per_page →
      get_user_repos_loop (f2 + 1) srv2 page acc =
        some (some (acc ++ l), [page])) ∧
    (∀ (srv2 : Nat → Option (List α)) (f2 page : Nat) (acc : List α),
      srv2 page = some [] →
      get_user_repos_loop (f2 + 1) srv2 page acc = some (some acc, [page])) ∧
    (∀ (srv2 : Nat → Option (List α)) (f2 : Nat),
      srv2 1 = some [] → get_user_repos (f2 + 1) srv2 = some (some [], [1])) ∧
    (none : Option (List α)) ≠ some [] := by
  refine ⟨?_, pageList_chain (k + 1) 1, rfl, ?_, ?_, ?_, by simp⟩
  · have h := get_user_repos_loop_fail srv k fuel 1 [] hfull hfail
      (by omega) (by omega)
    have hk : k + 2 - 1 = k + 1 := by omega
    rw [hk] at h
    exact h
  · intro srv2 f2 page acc l hl hne hlt
    unfold get_user_repos_loop
    rw [hl]
    simp [hne, hlt]
  · intro srv2 f2 page acc hl
    unfold get_user_repos_loop
    rw [hl]
    simp [List.isEmpty]
  · intro srv2 f2 hl
    unfold get_user_repos get_user_repos_loop
    rw [hl]
    simp [List.isEmpty]

/-- A server whose page 1 is full (100 items) and whose page 2 request
fails. -/
def cexSrvPages : Nat → Option (List Nat) :=
  fun p => if p = 1 then some (List.replicate 100 0) else none

/-- Witness for C1 at a concrete server: one full page then a failing
page yields the null sentinel after requesting pages 1 and 2, and the
sentinel differs from the empty listing. -/
theorem get_user_repos_null_on_failure_witness :
    get_user_repos 2 cexSrvPages = some (none, pageList 1 2) ∧
    (none : Option (List Nat)) ≠ some [] := by
  have h := get_user_repos_null_on_failure cexSrvPages 1 2
    (fun p h1 h2 => by
      have hp : p = 1 := by omega
      subst hp
      exact ⟨List.replicate 100 0, rfl, by simp [per_page]⟩)
    rfl (by omega)
  exact ⟨h.1, h.2.2.2.2.2.2⟩

/-! ### C2: rate-limit back-off of make_request -/

/-- C2: on a 403 response whose body carries the rate-limit marker,
`make_request` performs exactly one more request attempt (the next
oracle index), issued at a wall-clock time of at least `T + 10` when
the reset header holds `T` and at exactly `now + 60 + 10` when the
header is absent; a non-2xx response without the marker is answered
immediately with a sentinel or an escaping exception and is never
retried; and in every terminating run the request counter advances by
exactly the number of attempts consumed (one plus one per rate-limited
failure). -/
theorem make_request_rate_limit_policy {α : Type} (srv : Nat → HttpResponse α)
    (i fuel : Nat) (s : ClientState)
    (h403 : (srv i).status = 403) (hbody : (srv i).bodyHasRateLimit = true) :
    make_request (fuel + 1) srv i s =
      make_request fuel srv (i + 1) (retryState s (srv i)) ∧
    (retryState s (srv i)).requestCount = s.requestCount + 1 ∧
    (∀ T : Int, (srv i).resetHeader = some T →
      T + 10 ≤ (retryState s (srv i)).clock ∧
      s.clock + 10 ≤ (retryState s (srv i)).clock) ∧
    ((srv i).resetHeader = none →
      (retryState s (srv i)).clock = s.clock + 70) ∧
    (∀ (j : Nat) (s3 : ClientState),
      isRateLimited (srv j) = false → (srv j).status ≠ 200 →
      make_request (fuel + 1) srv j s3 =
        some (nonOkResult (srv j), afterHeaders s3 (srv j), j + 1) ∧
      (afterHeaders s3 (srv j)).requestCount = s3.requestCount + 1 ∧
      (afterHeaders s3 (srv j)).clock = s3.clock ∧
      (nonOkResult (srv j) = Except.ok none ∨
        nonOkResult (srv j) = Except.error PyError.jsonDecodeError)) ∧
    (∀ (fuel2 i2 : Nat) (s5 : ClientState)
      (out : Except PyError (Option (HttpResponse α))) (s6 : ClientState)
      (j2 : Nat),
      make_request fuel2 srv i2 s5 = some (out, s6, j2) →
      s6.requestCount = s5.requestCount + (j2 - i2) ∧ i2 < j2) := by
  have hrl : isRateLimited (srv i) = true := by
    simp [isRateLimited, h403, hbody]
  refine ⟨?_, ?_, ?_, ?_, ?_, ?_⟩
  · simp only [make_request, hrl, if_true]
  · simp [retryState, afterHeaders]
  · intro T hT
    have h1 : T - s.clock ≤ max (T - s.clock) 0 := le_max_left _ _
    have h2 : (0 : Int) ≤ max (T - s.clock) 0 := le_max_right _ _
    simp only [retryState, afterHeaders, hT, Option.getD_some]
    constructor <;> omega
  · intro hT
    simp only [retryState, afterHeaders, hT, Option.getD_none]
    have : max (s.clock + 60 - s.clock) 0 = 60 := by
      have : s.clock + 60 - s.clock = 60 := by omega
      rw [this]
      decide
    omega
  · intro j s3 hnrl hst
    refine ⟨?_, by simp [afterHeaders], by simp [afterHeaders], ?_⟩
    · simp only [make_request, hnrl, Bool.false_eq_true, if_false, hst,
        ne_eq, not_false_eq_true, if_true]
    · unfold nonOkResult
      cases h : (srv j).jsonBody with
      | none => right; rfl
      | some v => left; rfl
  · intro fuel2
    induction fuel2 with
    | zero =>
      intro i2 s5 out s6 j2 h
      simp [make_request] at h
    | succ f ih =>
      intro i2 s5 out s6 j2 h
      by_cases hrl2 : isRateLimited (srv i2)
      · simp only [make_request, hrl2, if_true] at h
        obtain ⟨hrc, hlt⟩ := ih (i2 + 1) (retryState s5 (srv i2)) out s6 j2 h
        have : (retryState s5 (srv i2)).requestCount = s5.requestCount + 1 := by
          simp [retryState, afterHeaders]
        constructor
        · rw [hrc, this]
          omega
        · omega
      · simp only [Bool.not_eq_true] at hrl2
        by_cases hst : (srv i2).status ≠ 200
        · simp only [make_request, hrl2, Bool.false_eq_true, if_false, hst,
            ne_eq, not_false_eq_true, if_true, Option.some.injEq, Prod.mk.injEq] at h
          obtain ⟨-, hs6, hj2⟩ := h
          subst hs6
          subst hj2
          constructor
          · simp [afterHeaders]
          · omega
        · simp only [ne_eq, Decidable.not_not] at hst
          simp only [make_request, hrl2, Bool.false_eq_true, if_false, hst,
            ne_eq, not_true_eq_false, if_false, Option.some.injEq,
            Prod.mk.injEq] at h
          obtain ⟨-, hs6, hj2⟩ := h
          subst hs6
          subst hj2
          constructor
          · simp [afterHeaders]
          · omega

/-- A server answering the first attempt with a rate-limited 403
(reset header 1000) and every later attempt with a plain 200. -/
def cexSrv403 : Nat → HttpResponse Unit :=
  fun n =>
    if n = 0 then
      { status := 403, bodyHasRateLimit := true, resetHeader := some 1000,
        remainingHeader := some 0, jsonBody := some () }
    else
      { status := 200, bodyHasRateLimit := false, resetHeader := none,
        remainingHeader := some 59, jsonBody := some () }

/-- Witness for C2 at a concrete rate-limited 403 with reset time 1000:
the call continues as exactly one retry at the next attempt index, the
request counter advances by one, and the retry clock is at least
1000 + 10. -/
theorem make_request_rate_limit_policy_witness :
    make_request 2 cexSrv403 0 ⟨5, 60, 0⟩ =
      make_request 1 cexSrv403 1 (retryState ⟨5, 60, 0⟩ (cexSrv403 0)) ∧
    (retryState ⟨5, 60, 0⟩ (cexSrv403 0)).requestCount = 5 + 1 ∧
    (1000 : Int) + 10 ≤ (retryState ⟨5, 60, 0⟩ (cexSrv403 0)).clock := by
  have h := make_request_rate_limit_policy cexSrv403 0 1 ⟨5, 60, 0⟩ rfl rfl
  exact ⟨h.1, h.2.1, (h.2.2.1 1000 rfl).1⟩

/-! ### C7: termination of the retry recursion -/

/-- C7: the retry recursion of `make_request` terminates as soon as any
later attempt draws a response that is not a rate-limited 403 (success
or permanent failure both end it), and it consumes unbounded fuel --
i.e. the source recursion never returns -- exactly when the server
keeps answering with rate-limited 403s forever. -/
theorem make_request_termination {α : Type} (srv : Nat → HttpResponse α)
    (s : ClientState) (i n fuel : Nat)
    (hn : isRateLimited (srv (i + n)) = false) (hfuel : n < fuel) :
    (make_request fuel srv i s).isSome = true ∧
    (∀ (fuel2 i2 : Nat) (s2 : ClientState),
      (∀ m, m < fuel2 → isRateLimited (srv (i2 + m)) = true) →
      make_request fuel2 srv i2 s2 = none) := by
  constructor
  · induction n generalizing i s fuel with
    | zero =>
      cases fuel with
      | zero => omega
      | succ f =>
        rw [Nat.add_zero] at hn
        simp only [make_request, hn, Bool.false_eq_true, if_false]
        by_cases h2 : (srv i).status ≠ 200 <;> simp [h2]
    | succ n2 ih =>
      cases fuel with
      | zero => omega
      | succ f =>
        by_cases hrl : isRateLimited (srv i)
        · simp only [make_request, hrl, if_true]
          have heq : i + (n2 + 1) = (i + 1) + n2 := by omega
          rw [heq] at hn
          exact ih _ _ _ hn (by omega)
        · simp only [Bool.not_eq_true] at hrl
          simp only [make_request, hrl, Bool.false_eq_true, if_false]
          by_cases h2 : (srv i).status ≠ 200 <;> simp [h2]
  · intro fuel2
    induction fuel2 with
    | zero => intro i2 s2 _; rfl
    | succ f ih =>
      intro i2 s2 h
      have h0 : isRateLimited (srv (i2 + 0)) = true := h 0 (by omega)
      rw [Nat.add_zero] at h0
      simp only [make_request, h0, if_true]
      refine ih (i2 + 1) (retryState s2 (srv i2)) (fun m hm => ?_)
      have hm2 := h (m + 1) (by omega)
      have heq : i2 + (m + 1) = (i2 + 1) + m := by omega
      rwa [heq] at hm2

/-- Witness for C7: with the concrete server whose second attempt is a
plain 200, two units of fuel suffice for the run to return. -/
theorem make_request_termination_witness :
    (make_request 2 cexSrv403 0 ⟨5, 60, 0⟩).isSome = true := by
  have h := make_request_termination cexSrv403 ⟨5, 60, 0⟩ 0 1 2 rfl (by omega)
  exact h.1

/-! ### Structure of the analyze_repos fold -/

theorem summaryOf_language_distribution (o : Oracles) (rs : List RepoRecord)
    (today : Int) (s2 : ClientState) :
    (summaryOf o rs today s2).language_distribution =
      (rs.foldl (processRepo o today) initAccum).language_counter := rfl

theorem summaryOf_repo_count (o : Oracles) (rs : List RepoRecord)
    (today : Int) (s2 : ClientState) :
    (summaryOf o rs today s2).repo_count = rs.length := rfl

theorem summaryOf_repos (o : Oracles) (rs : List RepoRecord)
    (today : Int) (s2 : ClientState) :
    (summaryOf o rs today s2).repos =
      (rs.foldl (processRepo o today) initAccum).repo_data := rfl

theorem summaryOf_total_stars (o : Oracles) (rs : List RepoRecord)
    (today : Int) (s2 : ClientState) :
    (summaryOf o rs today s2).total_stars =
      (rs.foldl (processRepo o today) initAccum).total_stars := rfl

theorem summaryOf_avg_stars (o : Oracles) (rs : List RepoRecord)
    (today : Int) (s2 : ClientState) :
    (summaryOf o rs today s2).avg_stars =
      if rs.isEmpty then 0
      else ((rs.foldl (processRepo o today) initAccum).total_stars : Rat)
        / (rs.length : Rat) := rfl

theorem summaryOf_avg_commits (o : Oracles) (rs : List RepoRecord)
    (today : Int) (s2 : ClientState) :
    (summaryOf o rs today s2).avg_commits =
      if (rs.foldl (processRepo o today) initAccum).repo_data.isEmpty then 0
      else
        ((((rs.foldl (processRepo o today) initAccum).repo_data.map
          (fun d => d.commits_count)).sum : Nat) : Rat)
        / ((rs.foldl (processRepo o today) initAccum).repo_data.length : Rat) :=
  rfl

theorem analyze_repos_eq (o : Oracles) (rs : List RepoRecord) (today : Int)
    (s : ClientState) (h : rs.isEmpty = false) :
    analyze_repos o rs today s =
      some (summaryOf o rs today
          { s with requestCount := s.requestCount + 4 * rs.length },
        { s with requestCount := s.requestCount + 4 * rs.length }) := by
  unfold analyze_repos
  simp [h]

theorem processRepo_language_counter (o : Oracles) (t : Int) (a : Accum)
    (r : RepoRecord) :
    (processRepo o t a r).language_counter =
      counterUpdate a.language_counter (pyOrStr r.language "Unknown") := by
  have hne : pyOrStr r.language "Unknown" ≠ "" :=
    pyOrStr_ne_empty _ _ (by decide)
  simp [processRepo, hne]

theorem foldl_processRepo_langSum (o : Oracles) (t : Int)
    (rs : List RepoRecord) : ∀ a : Accum,
    sumValues (rs.foldl (processRepo o t) a).language_counter =
      sumValues a.language_counter + rs.length := by
  induction rs with
  | nil => intro a; simp
  | cons r rest ih =>
    intro a
    simp only [List.foldl_cons, List.length_cons]
    rw [ih, processRepo_language_counter, sumValues_counterUpdate]
    omega

theorem foldl_processRepo_langGet (o : Oracles) (t : Int)
    (rs : List RepoRecord) : ∀ (a : Accum) (k : String),
    counterGet (rs.foldl (processRepo o t) a).language_counter k =
      counterGet a.language_counter k +
        (rs.filter (fun r => pyOrStr r.language "Unknown" = k)).length := by
  induction rs with
  | nil => intro a k; simp
  | cons r rest ih =>
    intro a k
    simp only [List.foldl_cons, List.filter_cons]
    rw [ih, processRepo_language_counter, counterGet_counterUpdate]
    by_cases hk : pyOrStr r.language "Unknown" = k
    · simp [hk]
      omega
    · simp [hk]

theorem foldl_processRepo_repo_data (o : Oracles) (t : Int)
    (rs : List RepoRecord) : ∀ a : Accum,
    (rs.foldl (processRepo o t) a).repo_data =
      a.repo_data ++ rs.map (mkDetail o t) := by
  induction rs with
  | nil => intro a; simp
  | cons r rest ih =>
    intro a
    simp only [List.foldl_cons, List.map_cons]
    rw [ih]
    have hd : (processRepo o t a r).repo_data =
        a.repo_data ++ [mkDetail o t r] := by
      simp [processRepo]
    rw [hd, List.append_assoc]
    rfl

/-! ### C3: language distribution sums to repo_count -/

/-- C3: for every non-empty repo sequence, the values of
`language_distribution` sum to `repo_count`; more precisely each key
holds exactly the number of repos whose `language or "Unknown"` bucket
is that key (so each repo lands in exactly one bucket, a null language
in the literal bucket Unknown). -/
theorem analyze_repos_language_sum (o : Oracles) (rs : List RepoRecord)
    (today : Int) (s : ClientState) (hne : rs ≠ []) :
    ∃ m s2, analyze_repos o rs today s = some (m, s2) ∧
      sumValues m.language_distribution = m.repo_count ∧
      ∀ k, counterGet m.language_distribution k =
        (rs.filter (fun r => pyOrStr r.language "Unknown" = k)).length := by
  have hemp : rs.isEmpty = false := by
    cases rs with
    | nil => exact absurd rfl hne
    | cons a l => rfl
  refine ⟨_, _, analyze_repos_eq o rs today s hemp, ?_, ?_⟩
  · rw [summaryOf_language_distribution, summaryOf_repo_count,
      foldl_processRepo_langSum]
    simp [initAccum, sumValues]
  · intro k
    rw [summaryOf_language_distribution, foldl_processRepo_langGet]
    simp [initAccum, counterGet]

/-- Sub-resource oracle where every enrichment fetch degrades to its
empty default. -/
def cexOracle : Oracles :=
  { langs := fun _ _ => []
    contributors := fun _ _ => []
    commits := fun _ _ => []
    readme := fun _ _ => none }

/-- A concrete listing record with a null primary language. -/
def cexRepo : RepoRecord :=
  { name := "r"
    owner_login := "o"
    language := none
    stargazers_count := 10
    forks_count := 2
    size := 5
    html_url := "u"
    description := none
    created_days := 0
    updated_days := 0
    watchers_count := 3
    open_issues_count := 1
    license_key := none
    fork := false
    default_branch := "main"
    has_wiki := true
    has_pages := false
    archived := false }

/-- Witness for C3 on a concrete one-repo listing. -/
theorem analyze_repos_language_sum_witness :
    [cexRepo] ≠ ([] : List RepoRecord) ∧
    (∃ m s2, analyze_repos cexOracle [cexRepo] 0 ⟨0, 60, 0⟩ = some (m, s2) ∧
      sumValues m.language_distribution = m.repo_count ∧
      ∀ k, counterGet m.language_distribution k =
        ([cexRepo].filter (fun r => pyOrStr r.language "Unknown" = k)).length) :=
  ⟨by simp,
    analyze_repos_language_sum cexOracle [cexRepo] 0 ⟨0, 60, 0⟩ (by simp)⟩

/-! ### C8: null language buckets to Unknown; chart filter drops it -/

/-- C8: a repo whose `language` is null is bucketed under the literal
key Unknown in `language_distribution` while still being counted in
`repo_count`, and the presentation layer's chart list keeps no falsy
and no Unknown key. -/
theorem analyze_repos_unknown_bucket (o : Oracles) (rs : List RepoRecord)
    (today : Int) (s : ClientState) (r0 : RepoRecord)
    (hmem : r0 ∈ rs) (hlang : r0.language = none) :
    ∃ m s2, analyze_repos o rs today s = some (m, s2) ∧
      m.repo_count = rs.length ∧
      counterGet m.language_distribution "Unknown" =
        (rs.filter
          (fun r => pyOrStr r.language "Unknown" = "Unknown")).length ∧
      1 ≤ counterGet m.language_distribution "Unknown" ∧
      ∀ p ∈ lang_data m.language_distribution, p.1 ≠ "" ∧ p.1 ≠ "Unknown" := by
  have hemp : rs.isEmpty = false := by
    cases rs with
    | nil => exact absurd hmem (List.not_mem_nil r0)
    | cons a l => rfl
  have hcount : counterGet
      (summaryOf o rs today
        { s with requestCount := s.requestCount + 4 * rs.length
        }).language_distribution "Unknown" =
      (rs.filter (fun r => pyOrStr r.language "Unknown" = "Unknown")).length := by
    rw [summaryOf_language_distribution, foldl_processRepo_langGet]
    simp [initAccum, counterGet]
  refine ⟨_, _, analyze_repos_eq o rs today s hemp,
    summaryOf_repo_count o rs today _, hcount, ?_, ?_⟩
  · rw [hcount]
    have hr0 : r0 ∈ rs.filter
        (fun r => pyOrStr r.language "Unknown" = "Unknown") := by
      refine List.mem_filter.mpr ⟨hmem, ?_⟩
      simp [pyOrStr, hlang]
    have := List.length_pos_of_mem hr0
    omega
  · intro p hp
    have := List.of_mem_filter hp
    simpa using this

/-- Witness for C8 on the concrete null-language repo. -/
theorem analyze_repos_unknown_bucket_witness :
    cexRepo ∈ [cexRepo] ∧ cexRepo.language = none ∧
    (∃ m s2, analyze_repos cexOracle [cexRepo] 0 ⟨0, 60, 0⟩ = some (m, s2) ∧
      m.repo_count = [cexRepo].length ∧
      counterGet m.language_distribution "Unknown" =
        ([cexRepo].filter
          (fun r => pyOrStr r.language "Unknown" = "Unknown")).length ∧
      1 ≤ counterGet m.language_distribution "Unknown" ∧
      ∀ p ∈ lang_data m.language_distribution, p.1 ≠ "" ∧ p.1 ≠ "Unknown") :=
  ⟨List.mem_singleton.mpr rfl, rfl,
    analyze_repos_unknown_bucket cexOracle [cexRepo] 0 ⟨0, 60, 0⟩ cexRepo
      (List.mem_singleton.mpr rfl) rfl⟩

/-! ### C4: average stars -/

/-- C4 counterexample: there is no summary with `repo_count == 0` in
which `avg_stars` and `total_stars` are defined as 0 -- on the empty
listing (the only input with zero repos) `analyze_repos` short-circuits
to the null sentinel before any summary is built (line 147-148). -/
theorem analyze_repos_empty_none :
    analyze_repos cexOracle [] 0 ⟨0, 60, 0⟩ = none := rfl

/-- C4 (amended): every summary `analyze_repos` actually returns has
`repo_count > 0` and satisfies `avg_stars * repo_count = total_stars`
exactly (float division modelled as exact rational division); for an
empty input the function returns the null sentinel instead of a
zero-average summary. -/
theorem analyze_repos_avg_stars (o : Oracles) (rs : List RepoRecord)
    (today : Int) (s : ClientState) (hne : rs ≠ []) :
    ∃ m s2, analyze_repos o rs today s = some (m, s2) ∧
      0 < m.repo_count ∧
      m.avg_stars * (m.repo_count : Rat) = (m.total_stars : Rat) ∧
      analyze_repos o [] today s = none := by
  have hemp : rs.isEmpty = false := by
    cases rs with
    | nil => exact absurd rfl hne
    | cons a l => rfl
  refine ⟨_, _, analyze_repos_eq o rs today s hemp, ?_, ?_, rfl⟩
  · rw [summaryOf_repo_count]
    exact List.length_pos.mpr hne
  · rw [summaryOf_avg_stars, summaryOf_repo_count, summaryOf_total_stars,
      hemp]
    simp only [Bool.false_eq_true, if_false]
    have h0 : rs.length ≠ 0 := by
      cases rs with
      | nil => exact absurd rfl hne
      | cons a l => simp
    have hlen : (rs.length : Rat) ≠ 0 := by exact_mod_cast h0
    exact div_mul_cancel₀ _ hlen

/-- Witness for C4's amended statement on a concrete one-repo input. -/
theorem analyze_repos_avg_stars_witness :
    [cexRepo] ≠ ([] : List RepoRecord) ∧
    (∃ m s2, analyze_repos cexOracle [cexRepo] 0 ⟨0, 60, 0⟩ = some (m, s2) ∧
      0 < m.repo_count ∧
      m.avg_stars * (m.repo_count : Rat) = (m.total_stars : Rat) ∧
      analyze_repos cexOracle [] 0 ⟨0, 60, 0⟩ = none) :=
  ⟨by simp, analyze_repos_avg_stars cexOracle [cexRepo] 0 ⟨0, 60, 0⟩ (by simp)⟩

/-! ### C5: purity of the aggregator -/

/-- The summary with its two client-state fields (`request_count`,
`rate_limit_remaining`, lines 284-285 of the source) erased. -/
def Summary.core (m : Summary) : Summary :=
  { m with request_count := 0, rate_limit_remaining := 0 }

/-- C5 counterexample: the aggregator is not a pure function of the
frozen input plus "now".  Running `analyze_repos` on one repo advances
the client's request counter from 0 to 4 (four sub-fetches), so the
second of two back-to-back calls on the identical frozen input returns
a summary with `request_count = 8` instead of `4` -- not bit-identical. -/
theorem analyze_repos_not_state_independent :
    (analyze_repos cexOracle [cexRepo] 0 ⟨0, 60, 0⟩).map
        (fun p => p.1.request_count) = some 4 ∧
    (analyze_repos cexOracle [cexRepo] 0 ⟨0, 60, 0⟩).map Prod.snd =
      some ⟨4, 60, 0⟩ ∧
    (analyze_repos cexOracle [cexRepo] 0 ⟨4, 60, 0⟩).map
        (fun p => p.1.request_count) = some 8 ∧
    (analyze_repos cexOracle [cexRepo] 0 ⟨0, 60, 0⟩).map Prod.fst ≠
      (analyze_repos cexOracle [cexRepo] 0 ⟨4, 60, 0⟩).map Prod.fst := by
  refine ⟨rfl, rfl, rfl, ?_⟩
  intro h
  have h4 := congrArg (Option.map (fun m : Summary => m.request_count)) h
  rw [Option.map_map, Option.map_map] at h4
  exact absurd h4 (by decide)

theorem core_summaryOf (o : Oracles) (rs : List RepoRecord) (today : Int)
    (sA sB : ClientState) :
    Summary.core (summaryOf o rs today sA) =
      Summary.core (summaryOf o rs today sB) := rfl

/-- C5 (amended): apart from the `request_count` and
`rate_limit_remaining` fields, which copy mutable client state into the
result, the summary is a pure deterministic function of the frozen
input (records plus sub-resource oracles) and the injected "now": runs
started from any two client states agree after erasing those two
fields. -/
theorem analyze_repos_core_state_independent (o : Oracles)
    (rs : List RepoRecord) (today : Int) (sA sB : ClientState) :
    (analyze_repos o rs today sA).map (fun p => Summary.core p.1) =
      (analyze_repos o rs today sB).map (fun p => Summary.core p.1) := by
  by_cases h : rs.isEmpty
  · unfold analyze_repos
    simp [h]
  · have h2 : rs.isEmpty = false := by simpa using h
    rw [analyze_repos_eq o rs today sA h2, analyze_repos_eq o rs today sB h2]
    rfl

/-! ### C10: commit counts capped at one page -/

/-- C10: `get_repo_commits` issues a single request for one page
(`per_page=100`, never paginating), so as long as the server honors the
page size (every commits payload holds at most 100 items), every
per-repo `commits_count` is at most 100 and hence `avg_commits` is at
most 100, even for repos with more commits in the window. -/
theorem analyze_repos_commits_capped (o : Oracles) (rs : List RepoRecord)
    (today : Int) (s : ClientState) (hne : rs ≠ [])
    (hcap : ∀ ow nm, (o.commits ow nm).length ≤ 100) :
    ∃ m s2, analyze_repos o rs today s = some (m, s2) ∧
      (∀ d ∈ m.repos, d.commits_count ≤ 100) ∧
      m.avg_commits ≤ 100 ∧
      (∀ (srv : Nat → HttpResponse (List Nat)) (i : Nat) (cs : ClientState)
        (l : List Nat),
        isRateLimited (srv i) = false → (srv i).status = 200 →
        (srv i).jsonBody = some l →
        get_repo_commits 1 srv i cs =
          some (Except.ok l, afterHeaders cs (srv i), i + 1)) := by
  have hemp : rs.isEmpty = false := by
    cases rs with
    | nil => exact absurd rfl hne
    | cons a l => rfl
  refine ⟨_, _, analyze_repos_eq o rs today s hemp, ?_, ?_, ?_⟩
  · intro d hd
    rw [summaryOf_repos, foldl_processRepo_repo_data] at hd
    simp only [initAccum, List.nil_append, List.mem_map] at hd
    obtain ⟨r, hr, rfl⟩ := hd
    show (o.commits r.owner_login r.name).length ≤ 100
    exact hcap r.owner_login r.name
  · rw [summaryOf_avg_commits, foldl_processRepo_repo_data]
    simp only [initAccum, List.nil_append]
    have hmne : (rs.map (mkDetail o today)).isEmpty = false := by
      cases rs with
      | nil => exact absurd rfl hne
      | cons a l => rfl
    rw [hmne]
    simp only [Bool.false_eq_true, if_false]
    have hlenpos : 0 < (rs.map (mkDetail o today)).length := by
      cases rs with
      | nil => exact absurd rfl hne
      | cons a l => simp
    have hlen : (0 : Rat) < ((rs.map (mkDetail o today)).length : Rat) := by
      exact_mod_cast hlenpos
    rw [div_le_iff₀ hlen]
    have hb : ∀ x ∈ (rs.map (mkDetail o today)).map
        (fun d => d.commits_count), x ≤ 100 := by
      intro x hx
      simp only [List.mem_map] at hx
      obtain ⟨d, hd, rfl⟩ := hx
      obtain ⟨r, hr, rfl⟩ := hd
      show (o.commits r.owner_login r.name).length ≤ 100
      exact hcap r.owner_login r.name
    have hsum := List.sum_le_card_nsmul _ 100 hb
    rw [smul_eq_mul] at hsum
    have hlen2 : ((rs.map (mkDetail o today)).map
        (fun d => d.commits_count)).length =
        (rs.map (mkDetail o today)).length := by simp
    rw [hlen2] at hsum
    have hnat : ((rs.map (mkDetail o today)).map
        (fun d => d.commits_count)).sum ≤
        100 * (rs.map (mkDetail o today)).length := by omega
    exact_mod_cast hnat
  · intro srv i cs l hnrl hst hjson
    have hmr : make_request 1 srv i cs =
        some (Except.ok (some (srv i)), afterHeaders cs (srv i), i + 1) := by
      simp [make_request, hnrl, hst]
    unfold get_repo_commits
    rw [hmr]
    simp [hjson]

/-- Witness for C10 on the concrete one-repo input whose commits oracle
returns the empty page. -/
theorem analyze_repos_commits_capped_witness :
    [cexRepo] ≠ ([] : List RepoRecord) ∧
    (∃ m s2, analyze_repos cexOracle [cexRepo] 0 ⟨0, 60, 0⟩ = some (m, s2) ∧
      (∀ d ∈ m.repos, d.commits_count ≤ 100) ∧
      m.avg_commits ≤ 100 ∧
      (∀ (srv : Nat → HttpResponse (List Nat)) (i : Nat) (cs : ClientState)
        (l : List Nat),
        isRateLimited (srv i) = false → (srv i).status = 200 →
        (srv i).jsonBody = some l →
        get_repo_commits 1 srv i cs =
          some (Except.ok l, afterHeaders cs (srv i), i + 1))) :=
  ⟨by simp,
    analyze_repos_commits_capped cexOracle [cexRepo] 0 ⟨0, 60, 0⟩ (by simp)
      (fun ow nm => by simp [cexOracle])⟩

/-! ### C9: docker keyword extraction -/

/-- C9: whenever the lowercased README text contains the substring
docker, `extract_tech_stack` returns a list in which the keyword docker
occurs exactly once, no matter how often the substring occurs; a null
or empty README yields the empty list. -/
theorem extract_tech_stack_docker :
    (∀ t : String, strContains (pyLower t) "docker" = true →
      (extract_tech_stack (some t)).count "docker" = 1) ∧
    extract_tech_stack none = [] ∧
    extract_tech_stack (some "") = [] := by
  refine ⟨?_, rfl, rfl⟩
  intro t h
  have htne : t ≠ "" := by
    intro he
    rw [he] at h
    exact absurd h (by decide)
  have hext : extract_tech_stack (some t) =
      tech_keywords.filter (fun tech => strContains (pyLower t) tech) := by
    simp [extract_tech_stack, htne]
  rw [hext, List.count_filter h]
  decide

/-- Witness for C9 on a concrete mixed-case README text containing the
substring twice. -/
theorem extract_tech_stack_docker_witness :
    strContains (pyLower "Run with DoCkEr and docker") "docker" = true ∧
    (extract_tech_stack (some "Run with DoCkEr and docker")).count
      "docker" = 1 :=
  ⟨by decide,
    extract_tech_stack_docker.1 "Run with DoCkEr and docker" (by decide)⟩

/-! ### C6: exceptions escaping the API client -/

/-- A server returning HTTP 404 with a body that is not valid JSON
(e.g. an HTML error page), so `response.json()` raises. -/
def cexSrvBadJson : Nat → HttpResponse Unit :=
  fun _ =>
    { status := 404
      bodyHasRateLimit := false
      resetHeader := none
      remainingHeader := some 59
      jsonBody := none }

/-- A readme endpoint answering 200 with payload content "A", a
malformed base64 string (one data character cannot be one more than a
multiple of four), on which `base64.b64decode` raises binascii.Error. -/
def cexSrvBadReadme : Nat → HttpResponse ReadmePayload :=
  fun _ =>
    { status := 200
      bodyHasRateLimit := false
      resetHeader := none
      remainingHeader := some 59
      jsonBody := some { content := some "A" } }

/-- `base64.b64decode(-).decode("utf-8")` on the content "A": raises. -/
def cexB64 : String → Option String := fun _ => none

/-- C6 (code bug, evaluated at the failing inputs): the claim that no
client operation ever raises is violated by the code.  `make_request`
calls `response.json()` on every non-200 response (line 47), so a 404
whose body is not JSON propagates a JSON-decoding exception instead of
returning the `None` sentinel; and `get_repo_readme` (line 112) calls
`base64.b64decode(content).decode("utf-8")`, so a 200 readme response
whose content field is malformed base64 propagates an exception instead
of returning the null default. -/
theorem api_client_exception_escapes :
    make_request 1 cexSrvBadJson 0 ⟨0, 60, 0⟩ =
      some (Except.error PyError.jsonDecodeError, ⟨1, 59, 0⟩, 1) ∧
    get_repo_readme cexB64 1 cexSrvBadReadme 0 ⟨0, 60, 0⟩ =
      some (Except.error PyError.base64Error, ⟨1, 59, 0⟩, 1) :=
  ⟨rfl, rfl⟩
